import Mathlib

/-!
Verification development for the module-orchestration core.

The repository is a TypeScript module runtime: `src/core.ts` defines the
lifecycle controller `Core` (configuration setter/getter, `validate`,
`init` = `constructModules` + `configureModules`, `start`, `render`),
and `src/unnamed/part_000` defines the public facade class (`exportAPI`
and the `destroy` closure).  This file is a shallow embedding of that
code in Lean: JavaScript objects holding module instances or facade
fields become insertion-ordered association lists, promise settlement
becomes an explicit `Settlement` value, and the asynchronous pipeline of
the `Core` constructor becomes the function `runCore`, which records
which phase was reached and how the readiness promise was settled.

External collaborators (the concrete modules discovered by
`require.context`, the DOM, the renderer) are parameters of the model:
an `Env` lists the existing DOM element ids and the discovered module
factories, and an `Instance` carries the externally observable behaviour
of one constructed module (its `prepare` outcome, its `render` outcome
when it is the renderer, and so on).
-/

set_option autoImplicit false

namespace ModuleCore

/-- Errors that can cross the model: `error` is a thrown `Error(msg)`,
`typeError` is a runtime `TypeError` raised by accessing a property or
calling a non-function. -/
inductive JsErr
  | error (msg : String)
  | typeError (msg : String)
deriving DecidableEq, Repr

/-- Outcome of running one JavaScript statement or call: it either
completes or throws. -/
inductive JsOutcome
  | ok
  | thrown (e : JsErr)
deriving DecidableEq, Repr

/-- How the readiness promise (`Core.isReady`) ends up: resolved,
rejected with an error, or never settled at all. -/
inductive Settlement
  | resolved
  | rejected (e : JsErr)
  | unsettled
deriving DecidableEq, Repr

/-- Property read on a JavaScript object modelled as an
insertion-ordered association list (keys are unique by construction). -/
def jsGet {α : Type} : List (String × α) → String → Option α
  | [], _ => none
  | p :: rest, n => if p.1 = n then some p.2 else jsGet rest n

/-- Property assignment on a JavaScript object: replace the value in
place if the key is already present, otherwise append the new key at
the end (JavaScript keeps insertion order for string keys). -/
def jsSet {α : Type} : List (String × α) → String → α → List (String × α)
  | [], k, v => [(k, v)]
  | p :: rest, k, v => if p.1 = k then (k, v) :: rest else p :: jsSet rest k v

/-- The `delete obj[k]` operation: remove the key if present. -/
def jsDelete {α : Type} (l : List (String × α)) (k : String) : List (String × α) :=
  l.filter (fun p => p.1 ≠ k)


/-- A JavaScript value sitting in the `holder` configuration field:
absent (`undefined`), a string id, a DOM element, or some other
object. -/
inductive Holder
  | undef
  | str (s : String)
  | elem
  | objOther
deriving DecidableEq, Repr

/-- The `data` configuration field (`OutputData`): the core only reads
`data.blocks`. -/
structure EditorData where
  blocks : List Nat
deriving DecidableEq, Repr

/-- The configuration object stored in `Core.config`: the fields read
anywhere in `src/core.ts` (`holderId`, `holder`, `data`, `autofocus`)
plus the readiness callback read by the facade constructor. -/
structure Config where
  holderId : Option String := none
  holder : Holder := .undef
  data : Option EditorData := none
  autofocus : Bool := false
  hasOnReady : Bool := false
deriving DecidableEq, Repr

/-- The argument of the `Core` constructor: a configuration object, a
bare string, or `undefined`. -/
inductive ConfigInput
  | obj (c : Config)
  | str (s : String)
  | undef
deriving DecidableEq, Repr

/-- The `configuration` setter of `Core`: an object is shallow-copied
(`{...config}`), anything else (a string or `undefined`) is wrapped as
`{ holder: config }`.  No defaults are merged. -/
def setConfiguration : ConfigInput → Config
  | .obj c => c
  | .str s => { holder := .str s }
  | .undef => { holder := .undef }

/-- JavaScript truthiness of an optional string field. -/
def truthyOpt : Option String → Bool
  | none => false
  | some s => s != ""

/-- JavaScript truthiness of the `holder` field. -/
def truthyHolder : Holder → Bool
  | .undef => false
  | .str s => s != ""
  | .elem => true
  | .objOther => true

/-- The `_.isString` check used by `validate`. -/
def isStringHolder : Holder → Bool
  | .str _ => true
  | _ => false

/-- The `_.isObject` check used by `validate` (a DOM element is an
object; a string is not). -/
def isObjectHolder : Holder → Bool
  | .elem => true
  | .objOther => true
  | _ => false

/-- The `$.isElement` check used by `validate`. -/
def isElementHolder : Holder → Bool
  | .elem => true
  | _ => false

/-- The string carried by a string-valued `holder` (only consulted when
`isStringHolder` holds). -/
def holderStr : Holder → String
  | .str s => s
  | _ => ""

/-- Outcome of one external `prepare()` call: succeeds, throws a
`CriticalError`, throws any other error, or the module has no callable
`prepare` (so the call site raises a `TypeError`). -/
inductive PrepareB
  | ok
  | throwCritical (msg : String)
  | throwOther (msg : String)
  | noPrepare
deriving DecidableEq, Repr

/-- Externally observable behaviour of one successfully constructed
module instance.  `renderB` is `some out` when the instance exposes a
`render` method whose call returns `out` (only consulted for the module
registered under the name `Renderer`); `setToBlockB` and `highlightB`
are the outcomes of the caret/highlight calls made on the `Caret` and
`BlockManager` instances by the autofocus step; `methods` is the
delegated-methods surface exposed by the `API` module. -/
structure Instance where
  id : Nat := 0
  prepare : PrepareB := .noPrepare
  renderB : Option JsOutcome := none
  setToBlockB : JsOutcome := .ok
  highlightB : JsOutcome := .ok
  methods : List String := []
  hasDestroy : Bool := false
deriving DecidableEq, Repr

/-- A discovered module factory: its `displayName` and either the
instance its constructor produces or `none` when the constructor
throws. -/
structure ModuleSpec where
  displayName : String
  ctor : Option Instance
deriving DecidableEq, Repr

/-- The external world of one run: the DOM element ids that exist, and
the module factories collected by `require.context`. -/
structure Env where
  domIds : List String := []
  mods : List ModuleSpec := []
deriving DecidableEq, Repr

/-- The `$.get` element lookup, as a success test. -/
def domGet (env : Env) (id : String) : Bool := env.domIds.contains id

/-- The error thrown when `holderId` and `holder` are both set. -/
def holderClashError : JsErr :=
  .error "«holderId» and «holder» param cant assign at the same time."

/-- The `Core.validate` method: throws when both mount-target fields
are truthy, when a string `holder` does not resolve to an element, or
when an object `holder` is not an element node. -/
def validate (cfg : Config) (env : Env) : JsOutcome :=
  if truthyOpt cfg.holderId && truthyHolder cfg.holder then
    .thrown holderClashError
  else if isStringHolder cfg.holder && !(domGet env (holderStr cfg.holder)) then
    .thrown (.error ("element with ID «" ++ holderStr cfg.holder ++
      "» is missing. Pass correct holder ID."))
  else if truthyHolder cfg.holder && isObjectHolder cfg.holder &&
      !(isElementHolder cfg.holder) then
    .thrown (.error "«holder» value must be an Element node")
  else
    .ok

/-- The body of `Core.constructModules`: walk the discovered factories
in order; a successful constructor stores its instance in the registry
under the factory's `displayName` (overwriting any existing entry), a
throwing constructor is skipped with a logged warning naming the
module.  The accumulator pairs the registry with the list of logged
construction warnings. -/
def constructAux :
    List ModuleSpec → List (String × Instance) × List String →
      List (String × Instance) × List String
  | [], acc => acc
  | m :: rest, acc =>
    match m.ctor with
    | some inst => constructAux rest (jsSet acc.1 m.displayName inst, acc.2)
    | none => constructAux rest (acc.1, acc.2 ++ [m.displayName])

/-- `Core.constructModules` starting from the empty
`moduleInstances` object. -/
def constructModules (mods : List ModuleSpec) :
    List (String × Instance) × List String :=
  constructAux mods ([], [])

/-- The instance produced by the last factory in the list whose
`displayName` is `n` and whose constructor succeeds (a later matching
factory whose constructor throws leaves the earlier instance in
place). -/
def lastRegistered : List ModuleSpec → String → Option Instance
  | [], _ => none
  | m :: rest, n =>
    match lastRegistered rest n with
    | some i => some i
    | none => if m.displayName = n then m.ctor else none

/-- `Core.getModulesDiff`: all registry entries except the one with the
given name. -/
def getModulesDiff (reg : List (String × Instance)) (name : String) :
    List (String × Instance) :=
  reg.filter (fun p => p.1 ≠ name)

/-- Number of occurrences of one entry in a peer view (used to state
that a peer view holds each sibling exactly once). -/
def countEntry (l : List (String × Instance)) (a : String × Instance) : Nat :=
  (l.filter (fun q => q = a)).length

/-- `Core.configureModules`: assign to every module's `state` the peer
view of all other modules; the result records each module name together
with the peer view assigned to it. -/
def configureModules (reg : List (String × Instance)) :
    List (String × List (String × Instance)) :=
  reg.map (fun p => (p.1, getModulesDiff reg p.1))

/-- The fixed allow-list iterated by `Core.start`. -/
def modulesToPrepare : List String :=
  ["Tools", "UI", "BlockManager", "Paste", "BlockSelection",
   "RectangleSelection", "CrossBlockSelection", "ReadOnly"]

/-- One step of the `start` loop for a module name: `none` means the
loop continues to the next name (the `prepare` call succeeded, threw a
non-critical error, or raised a `TypeError` because the module or its
`prepare` method is missing — all of these are caught and logged);
`some e` means a `CriticalError` was rethrown as `new Error(e.message)`
and the whole chain rejects with `e`. -/
def prepStep (reg : List (String × Instance)) (name : String) : Option JsErr :=
  match jsGet reg name with
  | none => none
  | some i =>
    match i.prepare with
    | .ok => none
    | .noPrepare => none
    | .throwOther _ => none
    | .throwCritical msg => some (.error msg)

/-- The sequential `reduce` chain of `Core.start` over a list of module
names: returns the list of names whose step actually ran (in order) and
the rethrown critical error, if any.  A critical error stops the chain
immediately; every other outcome lets it continue. -/
def startAux (reg : List (String × Instance)) :
    List String → List String × Option JsErr
  | [] => ([], none)
  | m :: rest =>
    match prepStep reg m with
    | some e => ([m], some e)
    | none =>
      let r := startAux reg rest
      (m :: r.1, r.2)

/-- `Core.start` over the fixed allow-list. -/
def startRun (reg : List (String × Instance)) : List String × Option JsErr :=
  startAux reg modulesToPrepare

/-- The body of `Core.render`:
`this.moduleInstances.Renderer.render(this.config.data.blocks)`.
Member access on a missing `Renderer` throws first; then the argument
`this.config.data.blocks` throws a `TypeError` when `data` is absent;
then the call itself throws when `render` is not a function; otherwise
the renderer's own outcome is returned. -/
def renderPhase (cfg : Config) (reg : List (String × Instance)) : JsOutcome :=
  match jsGet reg "Renderer" with
  | none => .thrown (.typeError "Cannot read property render of undefined")
  | some r =>
    match cfg.data with
    | none => .thrown (.typeError "Cannot read property blocks of undefined")
    | some _ =>
      match r.renderB with
      | none => .thrown (.typeError "render is not a function")
      | some out => out

/-- The autofocus block guarded by `this.configuration.autofocus`:
`Caret.setToBlock(BlockManager.blocks[0], ...)` followed by
`BlockManager.highlightCurrentNode()`.  A missing `Caret` throws on the
`setToBlock` member access, a missing `BlockManager` throws while the
argument is evaluated, and otherwise the two external calls run in
order. -/
def autofocusPhase (reg : List (String × Instance)) : JsOutcome :=
  match jsGet reg "Caret" with
  | none => .thrown (.typeError "Cannot read property setToBlock of undefined")
  | some caret =>
    match jsGet reg "BlockManager" with
    | none => .thrown (.typeError "Cannot read property blocks of undefined")
    | some bm =>
      match caret.setToBlockB with
      | .thrown e => .thrown e
      | .ok => bm.highlightB

/-- Observable outcome of one run of the `Core` constructor pipeline:
the stored configuration, how the readiness promise was settled, how
often its `resolve` and `reject` callbacks were invoked, the module
registry and the construction warnings produced by `init`, the trace of
`start` steps, and whether the render phase began and completed. -/
structure RunResult where
  cfg : Config
  settlement : Settlement
  onReadyCalls : Nat
  onFailCalls : Nat
  constructed : List (String × Instance)
  constructionWarnings : List String
  startTrace : List String
  renderReached : Bool
  renderCompleted : Bool
deriving DecidableEq, Repr

/-- Result of a run whose `validate` threw: the promise-chain `catch`
rejects the readiness promise before any module is constructed. -/
def validationFailedResult (cfg : Config) (e : JsErr) : RunResult :=
  { cfg := cfg, settlement := .rejected e, onReadyCalls := 0, onFailCalls := 1,
    constructed := [], constructionWarnings := [], startTrace := [],
    renderReached := false, renderCompleted := false }

/-- The part of the pipeline that runs inside the detached
`setTimeout` callback: `render`, then the optional autofocus block,
then `onReady()`.  An error thrown here is not observed by the
promise-chain `catch`, so the readiness promise is left unsettled. -/
def renderStage (cfg : Config) (env : Env) : RunResult :=
  match renderPhase cfg (constructModules env.mods).1 with
  | .thrown _ =>
    { cfg := cfg, settlement := .unsettled, onReadyCalls := 0, onFailCalls := 0,
      constructed := (constructModules env.mods).1,
      constructionWarnings := (constructModules env.mods).2,
      startTrace := (startRun (constructModules env.mods).1).1,
      renderReached := true, renderCompleted := false }
  | .ok =>
    if cfg.autofocus then
      match autofocusPhase (constructModules env.mods).1 with
      | .thrown _ =>
        { cfg := cfg, settlement := .unsettled, onReadyCalls := 0,
          onFailCalls := 0,
          constructed := (constructModules env.mods).1,
          constructionWarnings := (constructModules env.mods).2,
          startTrace := (startRun (constructModules env.mods).1).1,
          renderReached := true, renderCompleted := true }
      | .ok =>
        { cfg := cfg, settlement := .resolved, onReadyCalls := 1,
          onFailCalls := 0,
          constructed := (constructModules env.mods).1,
          constructionWarnings := (constructModules env.mods).2,
          startTrace := (startRun (constructModules env.mods).1).1,
          renderReached := true, renderCompleted := true }
    else
      { cfg := cfg, settlement := .resolved, onReadyCalls := 1,
        onFailCalls := 0,
        constructed := (constructModules env.mods).1,
        constructionWarnings := (constructModules env.mods).2,
        startTrace := (startRun (constructModules env.mods).1).1,
        renderReached := true, renderCompleted := true }

/-- The pipeline after a successful `validate`: `init` (module
construction and peer-view assignment, which never throws), then the
sequential `start` chain.  A critical prepare error is caught by the
promise-chain `catch` and rejects the readiness promise; otherwise the
run continues into the detached render stage. -/
def afterValidate (cfg : Config) (env : Env) : RunResult :=
  match (startRun (constructModules env.mods).1).2 with
  | some e =>
    { cfg := cfg, settlement := .rejected e, onReadyCalls := 0,
      onFailCalls := 1,
      constructed := (constructModules env.mods).1,
      constructionWarnings := (constructModules env.mods).2,
      startTrace := (startRun (constructModules env.mods).1).1,
      renderReached := false, renderCompleted := false }
  | none => renderStage cfg env

/-- The whole `Core` constructor pipeline: store the configuration via
the setter, `validate`, `init`, `start`, then the detached
`setTimeout` stage with `render`, autofocus and `onReady()`. -/
def runCore (input : ConfigInput) (env : Env) : RunResult :=
  match validate (setConfiguration input) env with
  | .thrown e => validationFailedResult (setConfiguration input) e
  | .ok => afterValidate (setConfiguration input) env

/-- A value stored in an own field of the facade object: the readiness
promise, the `destroy` closure, or the copied configuration object. -/
inductive FVal
  | promiseV
  | fnV
  | configV (c : Config)
deriving DecidableEq, Repr

/-- What the facade's internal prototype points to: the facade class
prototype (as set by `new`), the `methods` object of the internal `API`
module (after `exportAPI`), or `null` (after `destroy`). -/
inductive ProtoRef
  | classProto
  | apiMethods (ms : List String)
  | nullProto
deriving DecidableEq, Repr

/-- The facade object: its own enumerable fields in insertion order and
its prototype reference. -/
structure Facade where
  ownFields : List (String × FVal)
  proto : ProtoRef
deriving DecidableEq, Repr

/-- A freshly constructed facade: the constructor assigns the own field
`isReady`; `exportAPI` and `destroy` have not run yet. -/
def newFacade : Facade :=
  { ownFields := [("isReady", .promiseV)], proto := .classProto }

/-- Result of running `exportAPI`: either the updated facade, or a
thrown error (member access `Module.moduleInstances.API.methods` throws
when no `API` module survived construction). -/
inductive BuildResult
  | built (f : Facade)
  | failed (e : JsErr)
deriving DecidableEq, Repr

/-- The facade's `exportAPI`: copy the fields listed in
`fieldsToExport` (just `configuration`) from the core, install the
`destroy` closure as an own field, swap the prototype to the `API`
module's `methods` object, and `delete this.exportAPI` (a no-op on own
fields, since `exportAPI` lives on the class prototype). -/
def exportAPI (f : Facade) (coreConfig : Config)
    (reg : List (String × Instance)) : BuildResult :=
  let f1 : Facade :=
    { f with ownFields := jsSet f.ownFields "configuration" (.configV coreConfig) }
  let f2 : Facade :=
    { f1 with ownFields := jsSet f1.ownFields "destroy" .fnV }
  match jsGet reg "API" with
  | none => .failed (.typeError "Cannot read property methods of undefined")
  | some api =>
    .built { ownFields := jsDelete f2.ownFields "exportAPI",
             proto := .apiMethods api.methods }

/-- The facade-side effect of the `destroy` closure: the loop
`for (const field in this) if hasOwnProperty delete this[field]`
deletes every own field, then `Object.setPrototypeOf(this, null)`
severs the delegation link. -/
def destroyFacade (f : Facade) : Facade :=
  { ownFields := (f.ownFields.map Prod.fst).foldl jsDelete f.ownFields,
    proto := .nullProto }

/-- Calling `facade[name]()`: resolve the property on the own fields
first, then on the prototype; the call succeeds exactly when the
resolved property is a function, and otherwise throws a `TypeError`. -/
def callFacadeMethod (f : Facade) (name : String) : JsOutcome :=
  match jsGet f.ownFields name with
  | some .fnV => .ok
  | some _ => .thrown (.typeError "is not a function")
  | none =>
    match f.proto with
    | .classProto =>
      if name = "exportAPI" then .ok
      else .thrown (.typeError "is not a function")
    | .apiMethods ms =>
      if ms.contains name then .ok
      else .thrown (.typeError "is not a function")
    | .nullProto => .thrown (.typeError "is not a function")


/-! ### Concrete fixtures used by witnesses and counterexamples -/

/-- A renderer module whose `render` call succeeds. -/
def okRenderer : Instance := { id := 1, renderB := some .ok }

/-- A renderer module whose `render` call throws. -/
def badRenderer : Instance := { id := 3, renderB := some (.thrown (.error "render boom")) }

/-- An `API` module exposing one delegated method. -/
def apiInstance : Instance := { id := 2, methods := ["save"] }

/-- A `Tools` module whose `prepare` throws a `CriticalError`. -/
def toolsCritical : Instance := { id := 5, prepare := .throwCritical "tools died" }

/-- A `Paste` module whose `prepare` throws a plain error. -/
def pasteFailing : Instance := { id := 4, prepare := .throwOther "paste oops" }

/-- Two instances used for the duplicate-name scenario. -/
def dupFirst : Instance := { id := 21 }

/-- Second instance registered under the same name as `dupFirst`. -/
def dupSecond : Instance := { id := 22 }

/-- A benign environment: the mount target exists, the renderer and the
`API` module construct successfully, no allow-listed module is
present (its absence is tolerated by `start`). -/
def benignEnv : Env :=
  { domIds := ["editor-holder"],
    mods := [⟨"Renderer", some okRenderer⟩, ⟨"API", some apiInstance⟩] }

/-- Like `benignEnv` but the renderer throws during `render`. -/
def renderFailEnv : Env :=
  { domIds := ["editor-holder"],
    mods := [⟨"Renderer", some badRenderer⟩, ⟨"API", some apiInstance⟩] }

/-- Like `benignEnv` but with a `Tools` module whose `prepare` throws a
`CriticalError`. -/
def fatalEnv : Env :=
  { domIds := ["editor-holder"],
    mods := [⟨"Renderer", some okRenderer⟩, ⟨"API", some apiInstance⟩,
             ⟨"Tools", some toolsCritical⟩] }

/-- Like `benignEnv` but with a `Paste` module whose `prepare` throws a
plain (non-critical) error. -/
def pasteFailEnv : Env :=
  { domIds := ["editor-holder"],
    mods := [⟨"Renderer", some okRenderer⟩, ⟨"API", some apiInstance⟩,
             ⟨"Paste", some pasteFailing⟩] }

/-- The C1 scenario input: a configuration naming only an existing
mount target and carrying no initial content payload. -/
def noDataInput : ConfigInput := .obj { holder := .str "editor-holder" }

/-- The same mount target together with an initial content payload. -/
def withDataInput : ConfigInput :=
  .obj { holder := .str "editor-holder", data := some { blocks := [] } }

/-- A configuration with both mutually exclusive mount-target fields. -/
def clashInput : ConfigInput := .obj { holderId := some "a", holder := .str "b" }

/-- The facade produced by `exportAPI` over `benignEnv` with the
`withDataInput` configuration (used to instantiate the destroy
theorems). -/
def builtFacade : Facade :=
  { ownFields := [("isReady", .promiseV),
                  ("configuration", .configV (setConfiguration withDataInput)),
                  ("destroy", .fnV)],
    proto := .apiMethods ["save"] }

/-! ## Theorems

First the lemmas about the JavaScript-object primitives, then helper
lemmas about the lifecycle functions, then one theorem per claim with
its witness or counterexample. -/

variable {α : Type}

theorem jsGet_jsSet (l : List (String × α)) (k : String) (v : α) (n : String) :
    jsGet (jsSet l k v) n = if k = n then some v else jsGet l n := by
  induction l with
  | nil => simp [jsSet, jsGet]
  | cons p rest ih =>
    by_cases hpk : p.1 = k
    · subst hpk
      by_cases hkn : p.1 = n <;> simp [jsSet, jsGet, hkn]
    · have hset : jsSet (p :: rest) k v = p :: jsSet rest k v := by
        simp [jsSet, hpk]
      rw [hset]
      by_cases hpn : p.1 = n
      · have hkn : ¬ k = n := fun h => hpk (by rw [hpn, h])
        simp [jsGet, hpn, hkn]
      · simp [jsGet, hpn, ih]

theorem jsGet_jsDelete (l : List (String × α)) (k : String) (n : String) :
    jsGet (jsDelete l k) n = if k = n then none else jsGet l n := by
  induction l with
  | nil => simp [jsDelete, jsGet]
  | cons p rest ih =>
    by_cases hpk : p.1 = k
    · have hdel : jsDelete (p :: rest) k = jsDelete rest k := by
        simp [jsDelete, List.filter_cons, hpk]
      rw [hdel, ih]
      by_cases hkn : k = n
      · simp [hkn]
      · have hpn : ¬ p.1 = n := fun h => hkn (by rw [← hpk, h])
        simp [jsGet, hkn, hpn]
    · have hdel : jsDelete (p :: rest) k = p :: jsDelete rest k := by
        simp [jsDelete, List.filter_cons, hpk]
      rw [hdel]
      by_cases hpn : p.1 = n
      · have hkn : ¬ k = n := fun h => hpk (by rw [hpn, h])
        simp [jsGet, hpn, hkn]
      · simp [jsGet, hpn, ih]

theorem mem_keys_jsSet (l : List (String × α)) (k : String) (v : α) (n : String) :
    n ∈ (jsSet l k v).map Prod.fst ↔ n ∈ l.map Prod.fst ∨ n = k := by
  induction l with
  | nil => simp [jsSet]
  | cons p rest ih =>
    by_cases hpk : p.1 = k
    · subst hpk
      simp [jsSet]
      tauto
    · simp [jsSet, hpk, ih]
      tauto

theorem nodupKeys_jsSet (l : List (String × α)) (k : String) (v : α)
    (h : (l.map Prod.fst).Nodup) : ((jsSet l k v).map Prod.fst).Nodup := by
  induction l with
  | nil => simp [jsSet]
  | cons p rest ih =>
    by_cases hpk : p.1 = k
    · subst hpk
      simpa [jsSet] using h
    · have hset : jsSet (p :: rest) k v = p :: jsSet rest k v := by
        simp [jsSet, hpk]
      rw [hset]
      simp only [List.map_cons, List.nodup_cons] at h ⊢
      refine ⟨?_, ih h.2⟩
      intro hmem
      rcases (mem_keys_jsSet rest k v p.1).mp hmem with h1 | h1
      · exact h.1 h1
      · exact hpk h1

/-- Deleting every key that occurs in a list of keys covering all of
the object's own keys empties the object (the body of the facade's
`destroy` loop). -/
theorem foldl_jsDelete_eq_nil (keys : List String) (l : List (String × α))
    (h : ∀ p ∈ l, p.1 ∈ keys) : keys.foldl jsDelete l = [] := by
  induction keys generalizing l with
  | nil =>
    cases l with
    | nil => rfl
    | cons p rest => exact absurd (h p (by simp)) (by simp)
  | cons k ks ih =>
    simp only [List.foldl_cons]
    refine ih (jsDelete l k) ?_
    intro p hp
    rcases List.mem_filter.mp hp with ⟨hmem, hne⟩
    have := h p hmem
    simp only [List.mem_cons] at this
    rcases this with h1 | h1
    · exact absurd (by simpa using h1) (by simpa using hne)
    · exact h1


theorem startAux_take (reg : List (String × Instance)) (names : List String) :
    (startAux reg names).1 = names.take (startAux reg names).1.length := by
  induction names with
  | nil => rfl
  | cons m rest ih =>
    cases h : prepStep reg m with
    | some e => simp [startAux, h]
    | none =>
      simp only [startAux, h, List.length_cons, List.take_succ_cons]
      exact congrArg (m :: ·) ih

theorem startAux_append_none (reg : List (String × Instance))
    (xs rest : List String) (h : ∀ x ∈ xs, prepStep reg x = none) :
    startAux reg (xs ++ rest) =
      (xs ++ (startAux reg rest).1, (startAux reg rest).2) := by
  induction xs with
  | nil => simp
  | cons a as ih =>
    have ha : prepStep reg a = none := h a (by simp)
    have ih' := ih (fun x hx => h x (by simp [hx]))
    simp [startAux, ha, ih']

theorem startAux_fatal_head (reg : List (String × Instance)) (f : String)
    (ys : List String) (e : JsErr) (h : prepStep reg f = some e) :
    startAux reg (f :: ys) = ([f], some e) := by
  simp [startAux, h]

theorem startAux_all_none (reg : List (String × Instance)) (names : List String)
    (h : ∀ x ∈ names, prepStep reg x = none) :
    startAux reg names = (names, none) := by
  induction names with
  | nil => rfl
  | cons m rest ih =>
    have hm : prepStep reg m = none := h m (by simp)
    have ih' := ih (fun x hx => h x (by simp [hx]))
    simp [startAux, hm, ih']

theorem constructAux_keys_nodup (mods : List ModuleSpec)
    (acc : List (String × Instance) × List String)
    (h : (acc.1.map Prod.fst).Nodup) :
    (((constructAux mods acc).1).map Prod.fst).Nodup := by
  induction mods generalizing acc with
  | nil => exact h
  | cons m rest ih =>
    cases hc : m.ctor with
    | some inst =>
      simp only [constructAux, hc]
      exact ih _ (nodupKeys_jsSet _ _ _ h)
    | none =>
      simp only [constructAux, hc]
      exact ih _ h

theorem constructModules_keys_nodup (mods : List ModuleSpec) :
    (((constructModules mods).1).map Prod.fst).Nodup :=
  constructAux_keys_nodup mods ([], []) (by simp)

theorem jsGet_constructAux (mods : List ModuleSpec)
    (acc : List (String × Instance) × List String) (n : String) :
    jsGet ((constructAux mods acc).1) n =
      (match lastRegistered mods n with
        | some i => some i
        | none => jsGet acc.1 n) := by
  induction mods generalizing acc with
  | nil => simp [constructAux, lastRegistered]
  | cons m rest ih =>
    cases hc : m.ctor with
    | some inst =>
      simp only [constructAux, hc]
      rw [ih]
      cases hl : lastRegistered rest n with
      | some i => simp [lastRegistered, hl]
      | none =>
        simp only [lastRegistered, hl]
        by_cases hn : m.displayName = n <;>
          simp [hn, hc, jsGet_jsSet]
    | none =>
      simp only [constructAux, hc]
      rw [ih]
      cases hl : lastRegistered rest n with
      | some i => simp [lastRegistered, hl]
      | none =>
        simp only [lastRegistered, hl]
        by_cases hn : m.displayName = n <;> simp [hn, hc]

theorem snd_constructAux (mods : List ModuleSpec)
    (acc : List (String × Instance) × List String) :
    (constructAux mods acc).2 =
      acc.2 ++ (mods.filter (fun m => m.ctor.isNone)).map
        (fun m => m.displayName) := by
  induction mods generalizing acc with
  | nil => simp [constructAux]
  | cons m rest ih =>
    cases hc : m.ctor with
    | some inst =>
      simp only [constructAux, hc]
      rw [ih]
      simp [hc]
    | none =>
      simp only [constructAux, hc]
      rw [ih]
      simp [hc]

theorem exportAPI_built_ownFields (f : Facade) (cfg : Config)
    (reg : List (String × Instance)) (g : Facade)
    (h : exportAPI f cfg reg = .built g) :
    g.ownFields =
      jsDelete (jsSet (jsSet f.ownFields "configuration" (.configV cfg))
        "destroy" .fnV) "exportAPI" := by
  unfold exportAPI at h
  cases hapi : jsGet reg "API" with
  | none => rw [hapi] at h; cases h
  | some api =>
    rw [hapi] at h
    cases h
    rfl

theorem countEntry_eq_one (l : List (String × Instance)) (a : String × Instance)
    (hnd : l.Nodup) (h : a ∈ l) : countEntry l a = 1 := by
  induction l with
  | nil => cases h
  | cons b rest ih =>
    by_cases hba : b = a
    · subst hba
      have hnotin : b ∉ rest := (List.nodup_cons.mp hnd).1
      have hfil : rest.filter (fun q => q = b) = [] := by
        refine List.filter_eq_nil_iff.mpr ?_
        intro q hq
        simp only [decide_eq_true_eq]
        rintro rfl
        exact hnotin hq
      simp [countEntry, List.filter_cons, hfil]
    · have hmem : a ∈ rest := by
        rcases List.mem_cons.mp h with h1 | h1
        · exact absurd h1.symm hba
        · exact h1
      have ih' := ih (List.nodup_cons.mp hnd).2 hmem
      simpa [countEntry, List.filter_cons, hba] using ih'

theorem destroyFacade_ownFields (f : Facade) :
    (destroyFacade f).ownFields = [] := by
  unfold destroyFacade
  exact foldl_jsDelete_eq_nil _ _ (fun p hp => List.mem_map_of_mem Prod.fst hp)

theorem callFacadeMethod_destroyed (f : Facade) (name : String) :
    callFacadeMethod (destroyFacade f) name =
      .thrown (.typeError "is not a function") := by
  unfold callFacadeMethod
  rw [destroyFacade_ownFields]
  rfl


/-- C4 (confirmed): `start()` runs its per-module steps over the fixed
allow-list `Tools, UI, BlockManager, Paste, BlockSelection,
RectangleSelection, CrossBlockSelection, ReadOnly` strictly in that
order — the trace of executed steps is always an initial segment of the
allow-list, so step k+1 never begins before step k has settled; when no
allow-listed module has a critical `prepare`, every step runs in
exactly the declared order; and a non-fatal failure of module k (its
`prepare` throwing a non-critical error) still lets module k+1 be
attempted. -/
theorem start_allowlist_order (reg : List (String × Instance)) :
    (startRun reg).1 = modulesToPrepare.take (startRun reg).1.length
  ∧ ((∀ n ∈ modulesToPrepare, prepStep reg n = none) →
      (startRun reg).1 = modulesToPrepare)
  ∧ (∀ xs f next ys, modulesToPrepare = xs ++ f :: next :: ys →
      (∀ x ∈ xs, prepStep reg x = none) → prepStep reg f = none →
      next ∈ (startRun reg).1) := by
  refine ⟨startAux_take reg modulesToPrepare, ?_, ?_⟩
  · intro h
    rw [startRun, startAux_all_none reg modulesToPrepare h]
  · intro xs f next ys hsplit hxs hf
    have hxs' : ∀ x ∈ xs ++ [f], prepStep reg x = none := by
      intro x hx
      rcases List.mem_append.mp hx with h1 | h1
      · exact hxs x h1
      · rw [List.mem_singleton.mp h1]; exact hf
    have hsplit' : modulesToPrepare = (xs ++ [f]) ++ next :: ys := by
      rw [hsplit]; simp
    rw [startRun, hsplit', startAux_append_none reg (xs ++ [f]) (next :: ys) hxs']
    cases hstep : prepStep reg next with
    | some e => simp [startAux, hstep]
    | none => simp [startAux, hstep]

/-- Witness for `start_allowlist_order`: in an environment where the
`Paste` module throws a plain error from `prepare`, the next
allow-listed module `BlockSelection` is still attempted. -/
theorem start_allowlist_order_witness :
    "BlockSelection" ∈ (startRun (constructModules pasteFailEnv.mods).1).1 :=
  (start_allowlist_order (constructModules pasteFailEnv.mods).1).2.2
    ["Tools", "UI", "BlockManager"] "Paste" "BlockSelection"
    ["RectangleSelection", "CrossBlockSelection", "ReadOnly"]
    rfl (by decide) (by decide)

/-- C3 (confirmed): when an allow-listed module throws a critical error
from `prepare` (and the modules before it in the allow-list did not),
the start trace stops at that module — no later allow-listed module has
its step executed — and the readiness promise is rejected with the
rethrown error. -/
theorem critical_halts_start (input : ConfigInput) (env : Env)
    (xs ys : List String) (f : String) (e : JsErr)
    (hsplit : modulesToPrepare = xs ++ f :: ys)
    (hv : validate (setConfiguration input) env = .ok)
    (hxs : ∀ x ∈ xs, prepStep (constructModules env.mods).1 x = none)
    (hf : prepStep (constructModules env.mods).1 f = some e) :
    (runCore input env).startTrace = xs ++ [f]
  ∧ (runCore input env).settlement = .rejected e
  ∧ ∀ y ∈ ys, y ∉ xs ++ [f] → y ∉ (runCore input env).startTrace := by
  have hrun : startRun (constructModules env.mods).1 = (xs ++ [f], some e) := by
    rw [startRun, hsplit, startAux_append_none _ xs (f :: ys) hxs,
      startAux_fatal_head _ f ys e hf]
  have hcore : runCore input env = afterValidate (setConfiguration input) env := by
    unfold runCore; rw [hv]
  rw [hcore]
  unfold afterValidate
  rw [hrun]
  refine ⟨rfl, rfl, ?_⟩
  intro y _ hy
  simpa using hy

/-- Witness for `critical_halts_start`: with `Tools` throwing a
`CriticalError`, `BlockManager` never has its step executed and
readiness rejects with the rethrown error. -/
theorem critical_halts_start_witness :
    "BlockManager" ∉ (runCore withDataInput fatalEnv).startTrace
  ∧ (runCore withDataInput fatalEnv).settlement = .rejected (.error "tools died") := by
  have h := critical_halts_start withDataInput fatalEnv []
    ["UI", "BlockManager", "Paste", "BlockSelection", "RectangleSelection",
     "CrossBlockSelection", "ReadOnly"]
    "Tools" (.error "tools died") rfl (by decide) (by decide) (by decide)
  exact ⟨h.2.2 "BlockManager" (by decide) (by decide), h.2.1⟩

/-- C5 (confirmed): when both mutually exclusive mount-target fields
are set (truthy), `validate` throws the configuration clash error, the
pipeline rejects the readiness promise before `init`, and no module
instance is ever constructed. -/
theorem mutual_exclusion_aborts (input : ConfigInput) (env : Env)
    (h1 : truthyOpt (setConfiguration input).holderId = true)
    (h2 : truthyHolder (setConfiguration input).holder = true) :
    (runCore input env).settlement = .rejected holderClashError
  ∧ (runCore input env).constructed = []
  ∧ (runCore input env).startTrace = []
  ∧ (runCore input env).renderReached = false := by
  have hv : validate (setConfiguration input) env = .thrown holderClashError := by
    unfold validate
    rw [h1, h2]
    rfl
  unfold runCore
  rw [hv]
  exact ⟨rfl, rfl, rfl, rfl⟩

/-- Witness for `mutual_exclusion_aborts` at the spec scenario
`config = {holderId: "a", holder: "b"}`. -/
theorem mutual_exclusion_aborts_witness :
    (runCore clashInput benignEnv).settlement = .rejected holderClashError
  ∧ (runCore clashInput benignEnv).constructed = [] :=
  ⟨(mutual_exclusion_aborts clashInput benignEnv (by decide) (by decide)).1,
   (mutual_exclusion_aborts clashInput benignEnv (by decide) (by decide)).2.1⟩

/-- C10 (confirmed): constructing with no configuration argument is
accepted: the setter wraps `undefined` as an object whose mount-target
field is `undefined`, `validate` completes without throwing, and the
run proceeds to module construction (the registry of the run is exactly
what `constructModules` builds). -/
theorem undefined_config_accepted (env : Env) :
    setConfiguration .undef =
      { holderId := none, holder := .undef, data := none,
        autofocus := false, hasOnReady := false }
  ∧ validate (setConfiguration .undef) env = .ok
  ∧ (runCore .undef env).constructed = (constructModules env.mods).1 := by
  have hv : validate (setConfiguration .undef) env = .ok := rfl
  refine ⟨rfl, hv, ?_⟩
  unfold runCore
  rw [hv]
  unfold afterValidate
  cases hs : (startRun (constructModules env.mods).1).2 with
  | some e => rfl
  | none =>
    unfold renderStage
    cases hr : renderPhase (setConfiguration .undef) (constructModules env.mods).1 with
    | thrown e => rfl
    | ok => rfl

/-- C8, counterexample: registering two successfully constructing
factories under the same display name overwrites the earlier instance
(last registered wins) but logs no warning at all — refuting the part
of the claim that says a warning is logged when an existing name is
overwritten. -/
theorem duplicate_name_no_warning :
    (constructModules [⟨"Foo", some dupFirst⟩, ⟨"Foo", some dupSecond⟩]).1 =
      [("Foo", dupSecond)]
  ∧ (constructModules [⟨"Foo", some dupFirst⟩, ⟨"Foo", some dupSecond⟩]).2 = [] := by
  decide

/-- C8 (amended): when two module factories yield the same module name,
the last registered successful constructor wins — the registry maps
each name to the instance of the last factory with that name whose
constructor succeeded, so the two are never merged — and the warning
log contains exactly the names of the factories whose constructors
threw: overwriting an existing name is silent. -/
theorem last_registered_wins (mods : List ModuleSpec) (n : String) :
    jsGet (constructModules mods).1 n = lastRegistered mods n
  ∧ (constructModules mods).2 =
      (mods.filter (fun m => m.ctor.isNone)).map (fun m => m.displayName) := by
  constructor
  · rw [constructModules, jsGet_constructAux]
    cases hl : lastRegistered mods n <;> simp [hl, jsGet]
  · rw [constructModules, snd_constructAux]
    rfl


/-- C6 (confirmed): for every module name `n` in the registry built by
`constructModules`, the peer view assigned to it by `configureModules`
contains every other surviving module entry exactly once, contains
nothing that is not a surviving module entry, and never contains the
owning module itself. -/
theorem peer_views_correct (mods : List ModuleSpec) (n : String)
    (st : List (String × Instance))
    (h : (n, st) ∈ configureModules (constructModules mods).1) :
    (∀ m j, (m, j) ∈ (constructModules mods).1 → m ≠ n → countEntry st (m, j) = 1)
  ∧ (∀ m j, (m, j) ∈ st → (m, j) ∈ (constructModules mods).1 ∧ m ≠ n)
  ∧ n ∉ st.map Prod.fst := by
  rcases List.mem_map.mp h with ⟨p, hp, heq⟩
  rw [Prod.mk.injEq] at heq
  obtain ⟨h1, h2⟩ := heq
  have hst : st = getModulesDiff (constructModules mods).1 n := by
    rw [← h2, h1]
  have hregnd : ((constructModules mods).1).Nodup :=
    (constructModules_keys_nodup mods).of_map _
  have hstnd : st.Nodup := by
    rw [hst]
    exact hregnd.filter _
  refine ⟨?_, ?_, ?_⟩
  · intro m j hmem hne
    have hin : (m, j) ∈ st := by
      rw [hst]
      exact List.mem_filter.mpr ⟨hmem, by simpa using hne⟩
    exact countEntry_eq_one st (m, j) hstnd hin
  · intro m j hmem
    rw [hst] at hmem
    have := List.mem_filter.mp hmem
    exact ⟨this.1, by simpa using this.2⟩
  · intro hmem
    rcases List.mem_map.mp hmem with ⟨q, hq, hqn⟩
    rw [hst] at hq
    have := (List.mem_filter.mp hq).2
    simp only [decide_eq_true_eq] at this
    exact this hqn

/-- Witness for `peer_views_correct`: with two surviving modules `A`
and `B`, the peer view of `A` contains the entry of `B` exactly once
and does not contain `A`. -/
theorem peer_views_correct_witness :
    countEntry [(("B" : String), dupSecond)] (("B" : String), dupSecond) = 1
  ∧ ("A" : String) ∉ ([(("B" : String), dupSecond)]).map Prod.fst := by
  have h := peer_views_correct [⟨"A", some dupFirst⟩, ⟨"B", some dupSecond⟩]
    "A" [("B", dupSecond)] (by decide)
  exact ⟨h.1 "B" dupSecond (by decide) (by decide), h.2.2⟩

/-- C7 (confirmed): on any facade built by `exportAPI`, the copied
`configuration` field is present as an own field beforehand; after the
`destroy` closure runs, every own field is gone and every method call —
including calls to previously delegated methods, which succeeded while
the prototype still pointed at the `API` module's methods object —
throws a `TypeError` instead of silently succeeding. -/
theorem destroy_makes_facade_inert (f : Facade) (cfg : Config)
    (reg : List (String × Instance)) (g : Facade)
    (h : exportAPI f cfg reg = .built g) :
    jsGet g.ownFields "configuration" = some (.configV cfg)
  ∧ (∀ ms name, g.proto = .apiMethods ms → jsGet g.ownFields name = none →
      ms.contains name = true → callFacadeMethod g name = .ok)
  ∧ (∀ k, jsGet (destroyFacade g).ownFields k = none)
  ∧ (∀ name, callFacadeMethod (destroyFacade g) name =
      .thrown (.typeError "is not a function")) := by
  have hown := exportAPI_built_ownFields f cfg reg g h
  refine ⟨?_, ?_, ?_, fun name => callFacadeMethod_destroyed g name⟩
  · rw [hown, jsGet_jsDelete, jsGet_jsSet, jsGet_jsSet]
    simp
  · intro ms name hproto hnone hcont
    unfold callFacadeMethod
    rw [hnone, hproto]
    have hmem : name ∈ ms := List.mem_of_elem_eq_true hcont
    simp [hmem]
  · intro k
    rw [destroyFacade_ownFields]
    rfl

/-- Witness for `destroy_makes_facade_inert`: on the concretely built
facade, `save` is delegated and callable before `destroy`, and after
`destroy` the copied configuration is gone and calling `save` throws. -/
theorem destroy_makes_facade_inert_witness :
    callFacadeMethod builtFacade "save" = .ok
  ∧ jsGet (destroyFacade builtFacade).ownFields "configuration" = none
  ∧ callFacadeMethod (destroyFacade builtFacade) "save" =
      .thrown (.typeError "is not a function") := by
  have h := destroy_makes_facade_inert newFacade (setConfiguration withDataInput)
    (constructModules benignEnv.mods).1 builtFacade (by decide)
  exact ⟨h.2.1 ["save"] "save" rfl (by decide) (by decide),
    h.2.2.1 "configuration", h.2.2.2 "save"⟩

/-- C9 (confirmed): on any facade built by `exportAPI`, `destroy` is an
own, callable field; after the first `destroy` runs, the `destroy`
field itself has been deleted and the prototype is `null`, so a second
`destroy()` invocation throws a `TypeError` instead of running the
teardown again. -/
theorem second_destroy_fails (f : Facade) (cfg : Config)
    (reg : List (String × Instance)) (g : Facade)
    (h : exportAPI f cfg reg = .built g) :
    jsGet g.ownFields "destroy" = some .fnV
  ∧ callFacadeMethod g "destroy" = .ok
  ∧ jsGet (destroyFacade g).ownFields "destroy" = none
  ∧ (destroyFacade g).proto = .nullProto
  ∧ callFacadeMethod (destroyFacade g) "destroy" =
      .thrown (.typeError "is not a function") := by
  have hown := exportAPI_built_ownFields f cfg reg g h
  have hdg : jsGet g.ownFields "destroy" = some .fnV := by
    rw [hown, jsGet_jsDelete, jsGet_jsSet]
    simp
  refine ⟨hdg, ?_, ?_, rfl, callFacadeMethod_destroyed g "destroy"⟩
  · unfold callFacadeMethod
    rw [hdg]
  · rw [destroyFacade_ownFields]
    rfl

/-- Witness for `second_destroy_fails` on the concretely built
facade. -/
theorem second_destroy_fails_witness :
    callFacadeMethod builtFacade "destroy" = .ok
  ∧ callFacadeMethod (destroyFacade builtFacade) "destroy" =
      .thrown (.typeError "is not a function") := by
  have h := second_destroy_fails newFacade (setConfiguration withDataInput)
    (constructModules benignEnv.mods).1 builtFacade (by decide)
  exact ⟨h.2.1, h.2.2.2.2⟩

/-- C1, counterexample: in the spec scenario — a configuration naming
only an existing mount target and carrying no initial content payload —
the run reaches the render phase, but `render` throws a `TypeError`
while reading `blocks` of the absent `data`, inside the detached timer
callback: render never completes and the readiness future never settles
(neither resolves nor rejects), refuting both the claimed resolution
and the claimed settles-exactly-once. -/
theorem no_payload_never_settles :
    (runCore noDataInput benignEnv).renderReached = true
  ∧ (runCore noDataInput benignEnv).renderCompleted = false
  ∧ (runCore noDataInput benignEnv).settlement = .unsettled
  ∧ (runCore noDataInput benignEnv).settlement ≠ .resolved
  ∧ (runCore noDataInput benignEnv).onReadyCalls = 0
  ∧ (runCore noDataInput benignEnv).onFailCalls = 0 := by
  decide

/-- C1 (amended): for every configuration that names an existing mount
target and carries an initial content payload, when every allow-listed
prepare step settles non-critically, the renderer's `render` succeeds
and autofocus is not requested, the pipeline reaches render completion
and the readiness future resolves exactly once; the facade built by
`exportAPI` afterwards exposes under `configuration` exactly the
configuration stored by the setter — a shallow copy of the user
configuration with no defaults merged. -/
theorem startup_resolves_with_payload (input : ConfigInput) (env : Env)
    (api : Instance)
    (hv : validate (setConfiguration input) env = .ok)
    (hs : (startRun (constructModules env.mods).1).2 = none)
    (hr : renderPhase (setConfiguration input) (constructModules env.mods).1 = .ok)
    (ha : (setConfiguration input).autofocus = false)
    (hapi : jsGet (constructModules env.mods).1 "API" = some api) :
    (runCore input env).renderCompleted = true
  ∧ (runCore input env).settlement = .resolved
  ∧ (runCore input env).onReadyCalls = 1
  ∧ (runCore input env).onFailCalls = 0
  ∧ exportAPI newFacade (setConfiguration input) (constructModules env.mods).1 =
      .built { ownFields := [("isReady", .promiseV),
                             ("configuration", .configV (setConfiguration input)),
                             ("destroy", .fnV)],
               proto := .apiMethods api.methods }
  ∧ jsGet [("isReady", FVal.promiseV),
           ("configuration", FVal.configV (setConfiguration input)),
           ("destroy", FVal.fnV)] "configuration" =
      some (.configV (setConfiguration input)) := by
  have hcore : runCore input env = renderStage (setConfiguration input) env := by
    unfold runCore
    rw [hv]
    unfold afterValidate
    rw [hs]
  rw [hcore]
  unfold renderStage
  rw [hr]
  simp only [ha, Bool.false_eq_true, if_false]
  refine ⟨by trivial, by trivial, by trivial, by trivial, ?_, by simp [jsGet]⟩
  unfold exportAPI
  rw [hapi]
  simp [newFacade, jsSet, jsDelete]

/-- Witness for `startup_resolves_with_payload` on the benign
environment with a content payload. -/
theorem startup_resolves_with_payload_witness :
    (runCore withDataInput benignEnv).settlement = .resolved
  ∧ (runCore withDataInput benignEnv).onReadyCalls = 1 :=
  ⟨(startup_resolves_with_payload withDataInput benignEnv apiInstance
      (by decide) (by decide) (by decide) (by decide) (by decide)).2.1,
   (startup_resolves_with_payload withDataInput benignEnv apiInstance
      (by decide) (by decide) (by decide) (by decide) (by decide)).2.2.1⟩

/-- C2, counterexample: with a valid configuration (payload present)
and a renderer whose `render` throws, the run reaches the render phase
and the error escapes the promise chain: the readiness future is left
unsettled — it is NOT rejected with the render error, and the rejection
callback is never invoked — refuting the claim that every render-phase
error rejects readiness. -/
theorem render_error_not_rejected :
    renderPhase (setConfiguration withDataInput)
      (constructModules renderFailEnv.mods).1 = .thrown (.error "render boom")
  ∧ (runCore withDataInput renderFailEnv).renderReached = true
  ∧ (runCore withDataInput renderFailEnv).settlement = .unsettled
  ∧ (runCore withDataInput renderFailEnv).settlement ≠
      .rejected (.error "render boom")
  ∧ (runCore withDataInput renderFailEnv).onFailCalls = 0 := by
  decide

/-- C2 (amended): errors thrown before the render phase reject the
readiness future exactly once — a validation error rejects it with that
error, and a critical prepare error rejects it with the rethrown error;
if render completes and the optional autofocus step does not throw (in
particular whenever autofocus is not requested), the readiness promise
is resolved exactly once; an error thrown during the render phase
leaves the readiness future permanently unsettled — it is never
rejected; and across every run the readiness callbacks are invoked at
most once in total. -/
theorem readiness_settlement (input : ConfigInput) (env : Env) :
    (∀ e, validate (setConfiguration input) env = .thrown e →
      (runCore input env).settlement = .rejected e
        ∧ (runCore input env).onReadyCalls = 0
        ∧ (runCore input env).onFailCalls = 1)
  ∧ (∀ e, validate (setConfiguration input) env = .ok →
      (startRun (constructModules env.mods).1).2 = some e →
      (runCore input env).settlement = .rejected e
        ∧ (runCore input env).onReadyCalls = 0
        ∧ (runCore input env).onFailCalls = 1)
  ∧ ((runCore input env).renderCompleted = true →
      (runCore input env).cfg.autofocus = false →
      (runCore input env).settlement = .resolved
        ∧ (runCore input env).onReadyCalls = 1
        ∧ (runCore input env).onFailCalls = 0)
  ∧ ((runCore input env).renderCompleted = true →
      autofocusPhase (constructModules env.mods).1 = .ok →
      (runCore input env).settlement = .resolved
        ∧ (runCore input env).onReadyCalls = 1)
  ∧ ((runCore input env).renderReached = true →
      (runCore input env).renderCompleted = false →
      (runCore input env).settlement = .unsettled
        ∧ (runCore input env).onReadyCalls = 0
        ∧ (runCore input env).onFailCalls = 0)
  ∧ (runCore input env).onReadyCalls + (runCore input env).onFailCalls ≤ 1 := by
  unfold runCore
  cases hv : validate (setConfiguration input) env with
  | thrown e => simp [validationFailedResult]
  | ok =>
    unfold afterValidate
    cases hs : (startRun (constructModules env.mods).1).2 with
    | some e => simp
    | none =>
      unfold renderStage
      cases hr : renderPhase (setConfiguration input) (constructModules env.mods).1 with
      | thrown e => simp
      | ok =>
        by_cases ha : (setConfiguration input).autofocus = true
        · cases haf : autofocusPhase (constructModules env.mods).1 with
          | thrown e => simp [ha, haf]
          | ok => simp [ha, haf]
        · have ha' : (setConfiguration input).autofocus = false :=
            Bool.not_eq_true _ |>.mp ha
          simp [ha']

/-- Witness for `readiness_settlement`: a validation error (clashing
mount-target fields) rejects readiness with the clash error, a critical
prepare error rejects it with the rethrown error, the benign run with a
content payload resolves it, and the callbacks fire at most once. -/
theorem readiness_settlement_witness :
    (runCore clashInput benignEnv).settlement = .rejected holderClashError
  ∧ (runCore withDataInput fatalEnv).settlement = .rejected (.error "tools died")
  ∧ (runCore withDataInput benignEnv).settlement = .resolved
  ∧ (runCore withDataInput benignEnv).onReadyCalls +
      (runCore withDataInput benignEnv).onFailCalls ≤ 1 :=
  ⟨((readiness_settlement clashInput benignEnv).1 holderClashError (by decide)).1,
   ((readiness_settlement withDataInput fatalEnv).2.1 (.error "tools died")
      (by decide) (by decide)).1,
   ((readiness_settlement withDataInput benignEnv).2.2.1 (by decide) (by decide)).1,
   (readiness_settlement withDataInput benignEnv).2.2.2.2.2⟩

end ModuleCore
